import Mathlib

/-!
Verification development for the AWS resource-inventory script
(`aws_inventory_script.py`): a shallow embedding of its data model and
operations, followed by theorems about the embedded definitions.

Modelling conventions:
* A Python dict whose fields the script reads with `d['k']` is embedded as a
  structure with a plain field of that name (the script assumes presence);
  a field read with `d.get('k', default)` becomes an `Option` consumed with
  `Option.getD`.
* A boto3 call that the script wraps in `try`/`except` is embedded as an
  `Except String` value supplied by the environment, attached to the listed
  item it concerns (the run is sequential and deterministic).
* Machine-level string operations: `str.lower()` is modelled on ASCII via
  `Char.toLower`, and `str.replace(' ', '-')` (a one-character pattern) as a
  character map.
-/

namespace AwsInventory

/-- Decidable equality on `Except`, used to compare environment fields and
run outcomes on concrete inputs. -/
instance {ε α : Type} [DecidableEq ε] [DecidableEq α] : DecidableEq (Except ε α) := fun x y =>
  match x, y with
  | .error a, .error b =>
      if h : a = b then .isTrue (by rw [h]) else .isFalse (by intro hc; cases hc; exact h rfl)
  | .error _, .ok _ => .isFalse (by intro hc; cases hc)
  | .ok _, .error _ => .isFalse (by intro hc; cases hc)
  | .ok a, .ok b =>
      if h : a = b then .isTrue (by rw [h]) else .isFalse (by intro hc; cases hc; exact h rfl)

/-- A JSON-serializable scalar value, as stored in a resource-info dict
(the script only ever stores strings and integers outside the fixed keys). -/
inductive JVal where
  | jstr (s : String)
  | jint (n : Int)
deriving DecidableEq

/-- One element of the sequence handed to `extract_app_name`.  A Python dict
entry (an ordered field list, read with `.get`) or a non-dict entry such as a
plain string — which is what iterating a flat `Tags` map yields. -/
inductive TagEntry where
  | mk (fields : List (String × String))
  | other (s : String)
deriving DecidableEq

/-- The possible shapes of the `tags` argument of `extract_app_name`:
`None`, a list of entries, or a flat key-to-value dict (whose iteration
yields its keys, in insertion order). -/
inductive TagsInput where
  | noneInput
  | list (tags : List TagEntry)
  | flatMap (m : List (String × String))
deriving DecidableEq

/-- Python `d.get(k, default)` on a string-valued dict embedded as an ordered
association list. -/
def pyGet (d : List (String × String)) (k : String) (default : String) : String :=
  match d.lookup k with
  | some v => v
  | none => default

/-- Python `str.lower()` restricted to ASCII: lower-case every character. -/
def pyLower (s : String) : String :=
  String.mk (s.data.map Char.toLower)

/-- Python `str.replace(' ', '-')`: the pattern is a single character, so the
call replaces every space character by a hyphen. -/
def pyReplaceSpaceHyphen (s : String) : String :=
  String.mk (s.data.map fun c => if c = ' ' then '-' else c)

/-- Python `value.lower().replace(' ', '-')` — the owner-key normalization applied
to a matched tag value in `extract_app_name`. -/
def normalizeValue (v : String) : String :=
  pyReplaceSpaceHyphen (pyLower v)

/-- The field `self.app_tag_keys`: the fixed list of recognized owner-tag keys. -/
def app_tag_keys : List String :=
  ["Application", "App", "application", "app", "Project", "project"]

/-- Whether one entry of the tag sequence matches in `extract_app_name`:
it must be a dict whose `Key` is in `app_tag_keys` and whose `Value` is a
non-empty (truthy) string.  Non-dict entries never match (`continue`). -/
def matchesTag : TagEntry → Bool
  | .mk fields => app_tag_keys.contains (pyGet fields "Key" "") && pyGet fields "Value" "" != ""
  | .other _ => false

/-- The `for tag in tags` loop of `extract_app_name`: skip non-dict entries,
return the normalized value of the first matching dict entry, else fall
through to the sentinel. -/
def extractFromEntries : List TagEntry → String
  | [] => "untagged"
  | .other _ :: rest => extractFromEntries rest
  | .mk fields :: rest =>
      let value := pyGet fields "Value" ""
      if app_tag_keys.contains (pyGet fields "Key" "") && value != "" then
        normalizeValue value
      else
        extractFromEntries rest

/-- Python truthiness of the `tags` argument (`if not tags`). -/
def pyFalsy : TagsInput → Bool
  | .noneInput => true
  | .list ts => ts.isEmpty
  | .flatMap m => m.isEmpty

/-- Iterating the `tags` argument: a list yields its entries; a flat dict
yields its keys (plain strings, hence non-dict entries). -/
def entriesOf : TagsInput → List TagEntry
  | .noneInput => []
  | .list ts => ts
  | .flatMap m => m.map fun kv => .other kv.1

/-- The method `extract_app_name(self, tags)`: the Tag Resolver of the script. -/
def extract_app_name (tags : TagsInput) : String :=
  if pyFalsy tags then "untagged"
  else extractFromEntries (entriesOf tags)

/-- The comprehension `[{'Key': k, 'Value': v} for k, v in m.items()]` used
by the Lambda and API Gateway collectors to turn a flat tag map into the
canonical list of `{Key, Value}` dicts. -/
def tagPairsToDicts (m : List (String × String)) : List TagEntry :=
  m.map fun kv => .mk [("Key", kv.1), ("Value", kv.2)]

/-- The normalized resource dict (`resource_info`) appended to the inventory:
the five fixed fields, then the service-specific fields in insertion order
(`extra`), then the raw `tags` list stored last. -/
structure ResourceRecord where
  service : String
  resource_type : String
  name : String
  arn : String
  app_name : String
  extra : List (String × JVal)
  tags : List TagEntry
deriving DecidableEq

/-- What one `inventory_X` method contributes: the records it appends (in
order), the per-resource warnings it logs, and the collector-level errors. -/
structure CollectorResult where
  records : List ResourceRecord
  warnings : List String
  errors : List String
deriving DecidableEq

/-- The records produced by a per-resource loop body over the listed items:
each item either yields a record (`.ok`) or is skipped with a warning. -/
def collectRecords {α : Type} (process : α → Except String ResourceRecord)
    (items : List α) : List ResourceRecord :=
  items.filterMap fun a => (process a).toOption

/-- The warnings logged by a per-resource loop body over the listed items. -/
def collectWarnings {α : Type} (process : α → Except String ResourceRecord)
    (items : List α) : List String :=
  items.filterMap fun a =>
    match process a with
    | .ok _ => none
    | .error w => some w

/-- One entry of a `list_functions` page, together with the response the
environment gives to the `list_tags` call made for its ARN. -/
structure LambdaFunction where
  FunctionName : String
  FunctionArn : String
  Runtime : Option String
  MemorySize : Option Int
  Timeout : Option Int
  LastModified : Option String
  listTagsResult : Except String (List (String × String))
deriving DecidableEq

/-- The loop body of `inventory_lambda_functions` for one function: fetch the
flat tag map, convert it to `{Key, Value}` dicts, resolve the owner, and
build the record; a failed tag fetch skips the function with a warning. -/
def processLambdaFunction (f : LambdaFunction) : Except String ResourceRecord :=
  match f.listTagsResult with
  | .error e => .error ("Error processing Lambda function " ++ f.FunctionName ++ ": " ++ e)
  | .ok tagMap =>
      let tags := tagPairsToDicts tagMap
      .ok { service := "Lambda", resource_type := "Function",
            name := f.FunctionName, arn := f.FunctionArn,
            app_name := extract_app_name (.list tags),
            extra := [("runtime", .jstr (f.Runtime.getD "Unknown")),
                      ("memory", .jint (f.MemorySize.getD 0)),
                      ("timeout", .jint (f.Timeout.getD 0)),
                      ("last_modified", .jstr (f.LastModified.getD ""))],
            tags := tags }

/-- The collector `inventory_lambda_functions`: walk all pages of `list_functions`; a
failure of the listing itself aborts this collector only, with an error. -/
def inventory_lambda_functions
    (pages : Except String (List (List LambdaFunction))) : CollectorResult :=
  match pages with
  | .error e => ⟨[], [], ["Error inventorying Lambda functions: " ++ e]⟩
  | .ok ps =>
      ⟨collectRecords processLambdaFunction ps.flatten,
       collectWarnings processLambdaFunction ps.flatten, []⟩

/-- One entry of a `describe_db_instances` page, with the response to the
`list_tags_for_resource` call for its ARN (`TagList` is already a list of
`{Key, Value}` dicts). -/
structure DBInstance where
  DBInstanceIdentifier : String
  DBInstanceArn : String
  Engine : Option String
  DBInstanceClass : Option String
  DBInstanceStatus : Option String
  AllocatedStorage : Option Int
  listTagsResult : Except String (List TagEntry)
deriving DecidableEq

/-- One entry of a `describe_db_clusters` page, with the response to the
`list_tags_for_resource` call for its ARN. -/
structure DBCluster where
  DBClusterIdentifier : String
  DBClusterArn : String
  Engine : Option String
  Status : Option String
  listTagsResult : Except String (List TagEntry)
deriving DecidableEq

/-- The loop body of the DB-instance half of `inventory_rds_instances`. -/
def processDBInstance (db : DBInstance) : Except String ResourceRecord :=
  match db.listTagsResult with
  | .error e => .error ("Error processing RDS instance " ++ db.DBInstanceIdentifier ++ ": " ++ e)
  | .ok tl =>
      .ok { service := "RDS", resource_type := "DB Instance",
            name := db.DBInstanceIdentifier, arn := db.DBInstanceArn,
            app_name := extract_app_name (.list tl),
            extra := [("engine", .jstr (db.Engine.getD "Unknown")),
                      ("instance_class", .jstr (db.DBInstanceClass.getD "Unknown")),
                      ("status", .jstr (db.DBInstanceStatus.getD "Unknown")),
                      ("allocated_storage", .jint (db.AllocatedStorage.getD 0))],
            tags := tl }

/-- The loop body of the DB-cluster half of `inventory_rds_instances`. -/
def processDBCluster (cluster : DBCluster) : Except String ResourceRecord :=
  match cluster.listTagsResult with
  | .error e => .error ("Error processing RDS cluster " ++ cluster.DBClusterIdentifier ++ ": " ++ e)
  | .ok tl =>
      .ok { service := "RDS", resource_type := "DB Cluster",
            name := cluster.DBClusterIdentifier, arn := cluster.DBClusterArn,
            app_name := extract_app_name (.list tl),
            extra := [("engine", .jstr (cluster.Engine.getD "Unknown")),
                      ("status", .jstr (cluster.Status.getD "Unknown"))],
            tags := tl }

/-- The collector `inventory_rds_instances`: instances are walked first, clusters second,
inside one `try` — so a failure of the cluster listing keeps the instance
records already appended, and a failure of the instance listing aborts the
whole collector before any cluster is seen. -/
def inventory_rds_instances
    (instPages : Except String (List (List DBInstance)))
    (clusterPages : Except String (List (List DBCluster))) : CollectorResult :=
  match instPages with
  | .error e => ⟨[], [], ["Error inventorying RDS resources: " ++ e]⟩
  | .ok ips =>
      let instRecs := collectRecords processDBInstance ips.flatten
      let instWarns := collectWarnings processDBInstance ips.flatten
      match clusterPages with
      | .error e => ⟨instRecs, instWarns, ["Error inventorying RDS resources: " ++ e]⟩
      | .ok cps =>
          ⟨instRecs ++ collectRecords processDBCluster cps.flatten,
           instWarns ++ collectWarnings processDBCluster cps.flatten, []⟩

/-- The table description returned by `describe_table`. -/
structure TableDesc where
  TableArn : String
  TableStatus : Option String
  ItemCount : Option Int
  TableSizeBytes : Option Int
deriving DecidableEq

/-- One table name from a `list_tables` page, with the responses to the
`describe_table` and `list_tags_of_resource` calls made for it. -/
structure DynamoTableEntry where
  tableName : String
  describeResult : Except String TableDesc
  listTagsResult : Except String (List TagEntry)
deriving DecidableEq

/-- The loop body of `inventory_dynamodb_tables` for one table name:
describe the table, fetch its tags, build the record; a failure of either
call skips the table with a warning. -/
def processDynamoTable (t : DynamoTableEntry) : Except String ResourceRecord :=
  match t.describeResult with
  | .error e => .error ("Error processing DynamoDB table " ++ t.tableName ++ ": " ++ e)
  | .ok table =>
      match t.listTagsResult with
      | .error e => .error ("Error processing DynamoDB table " ++ t.tableName ++ ": " ++ e)
      | .ok tags =>
          .ok { service := "DynamoDB", resource_type := "Table",
                name := t.tableName, arn := table.TableArn,
                app_name := extract_app_name (.list tags),
                extra := [("status", .jstr (table.TableStatus.getD "Unknown")),
                          ("item_count", .jint (table.ItemCount.getD 0)),
                          ("table_size_bytes", .jint (table.TableSizeBytes.getD 0))],
                tags := tags }

/-- The collector `inventory_dynamodb_tables`: walk all pages of `list_tables`. -/
def inventory_dynamodb_tables
    (pages : Except String (List (List DynamoTableEntry))) : CollectorResult :=
  match pages with
  | .error e => ⟨[], [], ["Error inventorying DynamoDB tables: " ++ e]⟩
  | .ok ps =>
      ⟨collectRecords processDynamoTable ps.flatten,
       collectWarnings processDynamoTable ps.flatten, []⟩

/-- Outcome of the `get_bucket_tagging` call for one bucket: a tag set, a
`ClientError` with an error code, or some other exception. -/
inductive TagFetchResult where
  | ok (tagSet : List TagEntry)
  | clientError (code : String)
  | failure (msg : String)
deriving DecidableEq

/-- One bucket from the `list_buckets` response, with the responses to the
`get_bucket_tagging` and `get_bucket_location` calls made for it
(`LocationConstraint` may be present-but-`None`). -/
structure S3Bucket where
  Name : String
  CreationDate : String
  taggingResult : TagFetchResult
  locationResult : Except String (Option String)
deriving DecidableEq

/-- The inner `try`/`except ClientError` around `get_bucket_tagging`: a
`ClientError` with code `NoSuchTagSet` yields an empty tag set; any other
outcome of a failed fetch re-raises into the per-bucket handler. -/
def s3TagsOutcome : TagFetchResult → Except String (List TagEntry)
  | .ok ts => .ok ts
  | .clientError code =>
      if code = "NoSuchTagSet" then .ok [] else .error code
  | .failure msg => .error msg

/-- The inner `try`/bare-`except` around `get_bucket_location`: a missing or
`None` `LocationConstraint` defaults to `us-east-1`; a failed call degrades
the location to `Unknown`. -/
def s3Location (b : S3Bucket) : String :=
  match b.locationResult with
  | .ok loc => loc.getD "us-east-1"
  | .error _ => "Unknown"

/-- The loop body of `inventory_s3_buckets` for one bucket: a `ClientError`
with code `NoSuchTagSet` is treated as an empty tag set; any other tagging
failure skips the bucket with a warning. -/
def processS3Bucket (b : S3Bucket) : Except String ResourceRecord :=
  match s3TagsOutcome b.taggingResult with
  | .error e => .error ("Error processing S3 bucket " ++ b.Name ++ ": " ++ e)
  | .ok tags =>
      .ok { service := "S3", resource_type := "Bucket",
            name := b.Name, arn := "arn:aws:s3:::" ++ b.Name,
            app_name := extract_app_name (.list tags),
            extra := [("creation_date", .jstr b.CreationDate),
                      ("region", .jstr (s3Location b))],
            tags := tags }

/-- The collector `inventory_s3_buckets`: one unpaginated `list_buckets` call. -/
def inventory_s3_buckets
    (listing : Except String (List S3Bucket)) : CollectorResult :=
  match listing with
  | .error e => ⟨[], [], ["Error inventorying S3 buckets: " ++ e]⟩
  | .ok buckets =>
      ⟨collectRecords processS3Bucket buckets,
       collectWarnings processS3Bucket buckets, []⟩

/-- One instance of a reservation from a `describe_instances` page; its tags
come inlined in the listing response. -/
structure EC2Instance where
  InstanceId : String
  OwnerId : Option String
  InstanceType : Option String
  StateName : Option String
  LaunchTime : Option String
  Tags : Option (List TagEntry)
deriving DecidableEq

/-- One reservation of a `describe_instances` page. -/
structure Reservation where
  Instances : List EC2Instance
deriving DecidableEq

/-- The loop body of `inventory_ec2_instances` for one instance: the ARN is
constructed from the region, the owner id (defaulting to `unknown`) and the
instance id; there is no secondary fetch, so no failure source remains in
this model. -/
def processEC2Instance (region : String) (i : EC2Instance) : ResourceRecord :=
  let tags := i.Tags.getD []
  { service := "EC2", resource_type := "Instance",
    name := i.InstanceId,
    arn := "arn:aws:ec2:" ++ region ++ ":" ++ i.OwnerId.getD "unknown"
             ++ ":instance/" ++ i.InstanceId,
    app_name := extract_app_name (.list tags),
    extra := [("instance_type", .jstr (i.InstanceType.getD "Unknown")),
              ("state", .jstr (i.StateName.getD "Unknown")),
              ("launch_time", .jstr (i.LaunchTime.getD ""))],
    tags := tags }

/-- The collector `inventory_ec2_instances`: walk all pages, reservations, instances. -/
def inventory_ec2_instances (region : String)
    (pages : Except String (List (List Reservation))) : CollectorResult :=
  match pages with
  | .error e => ⟨[], [], ["Error inventorying EC2 instances: " ++ e]⟩
  | .ok ps =>
      ⟨((ps.flatten.map Reservation.Instances).flatten).map (processEC2Instance region), [], []⟩

/-- One REST API from a `get_rest_apis` page, with the response to the
`get_tags` call made for its constructed ARN (`tags` is a flat map). -/
structure RestApi where
  id : String
  name : String
  createdDate : Option String
  getTagsResult : Except String (List (String × String))
deriving DecidableEq

/-- The loop body of the REST-API half of `inventory_apigateway_apis`:
the flat tag map is converted to `{Key, Value}` dicts before resolving the
owner; a failed tag fetch skips the API with a warning. -/
def processRestApi (region : String) (api : RestApi) : Except String ResourceRecord :=
  match api.getTagsResult with
  | .error e => .error ("Error processing API Gateway API " ++ api.name ++ ": " ++ e)
  | .ok tagMap =>
      let tags := tagPairsToDicts tagMap
      .ok { service := "API Gateway", resource_type := "REST API",
            name := api.name,
            arn := "arn:aws:apigateway:" ++ region ++ "::/restapis/" ++ api.id,
            app_name := extract_app_name (.list tags),
            extra := [("api_id", .jstr api.id),
                      ("created_date", .jstr (api.createdDate.getD ""))],
            tags := tags }

/-- One HTTP API from a `get_apis` (v2) page; its `Tags` come inlined as a
flat map. -/
structure HttpApi where
  ApiId : String
  Name : String
  ProtocolType : Option String
  CreatedDate : Option String
  Tags : Option (List (String × String))
deriving DecidableEq

/-- The loop body of the v2 half of `inventory_apigateway_apis`: the flat
`Tags` map is passed directly (unconverted) to `extract_app_name` for owner
resolution, while the record's `tags` field stores the converted
`{Key, Value}` dict list. -/
def processHttpApi (region : String) (api : HttpApi) : ResourceRecord :=
  { service := "API Gateway v2", resource_type := "HTTP API",
    name := api.Name,
    arn := "arn:aws:apigateway:" ++ region ++ "::/apis/" ++ api.ApiId,
    app_name := extract_app_name (.flatMap (api.Tags.getD [])),
    extra := [("api_id", .jstr api.ApiId),
              ("protocol_type", .jstr (api.ProtocolType.getD "Unknown")),
              ("created_date", .jstr (api.CreatedDate.getD ""))],
    tags := tagPairsToDicts (api.Tags.getD []) }

/-- The collector `inventory_apigateway_apis`: REST APIs are walked first, v2 APIs second,
inside one `try` — a failure of the REST listing aborts the collector before
any v2 API is seen. -/
def inventory_apigateway_apis (region : String)
    (restPages : Except String (List (List RestApi)))
    (httpPages : Except String (List (List HttpApi))) : CollectorResult :=
  match restPages with
  | .error e => ⟨[], [], ["Error inventorying API Gateway APIs: " ++ e]⟩
  | .ok rps =>
      let restRecs := collectRecords (processRestApi region) rps.flatten
      let restWarns := collectWarnings (processRestApi region) rps.flatten
      match httpPages with
      | .error e => ⟨restRecs, restWarns, ["Error inventorying API Gateway APIs: " ++ e]⟩
      | .ok hps =>
          ⟨restRecs ++ (hps.flatten.map (processHttpApi region)), restWarns, []⟩

/-- The environment of one run: the responses the AWS APIs give to every
listing call the six collectors make (secondary-fetch responses are attached
to the listed items themselves). -/
structure Env where
  region : String
  lambdaPages : Except String (List (List LambdaFunction))
  rdsInstancePages : Except String (List (List DBInstance))
  rdsClusterPages : Except String (List (List DBCluster))
  dynamoPages : Except String (List (List DynamoTableEntry))
  s3Listing : Except String (List S3Bucket)
  ec2Pages : Except String (List (List Reservation))
  restApiPages : Except String (List (List RestApi))
  httpApiPages : Except String (List (List HttpApi))
deriving DecidableEq

/-- The collector results of `run_inventory`, in its fixed execution order. -/
def collectAll (env : Env) : List CollectorResult :=
  [inventory_lambda_functions env.lambdaPages,
   inventory_rds_instances env.rdsInstancePages env.rdsClusterPages,
   inventory_dynamodb_tables env.dynamoPages,
   inventory_s3_buckets env.s3Listing,
   inventory_ec2_instances env.region env.ec2Pages,
   inventory_apigateway_apis env.region env.restApiPages env.httpApiPages]

/-- The stream of records appended to `self.inventory` during a run, in
append order. -/
def allRecords (env : Env) : List ResourceRecord :=
  ((collectAll env).map CollectorResult.records).flatten

/-- The aggregate `self.inventory`: a `defaultdict(list)` keyed by owner, embedded as an
ordered association list (Python dicts preserve key insertion order). -/
abbrev Inventory : Type := List (String × List ResourceRecord)

/-- One append `self.inventory[key].append(r)` on a `defaultdict(list)`: append to the
bucket of `key`, creating the bucket at the end on first use. -/
def addToBucket : Inventory → String → ResourceRecord → Inventory
  | [], key, r => [(key, [r])]
  | (k, rs) :: rest, key, r =>
      if k = key then (k, rs ++ [r]) :: rest
      else (k, rs) :: addToBucket rest key r

/-- Replay a stream of record appends into an empty inventory. -/
def buildInventory (rs : List ResourceRecord) : Inventory :=
  rs.foldl (fun inv r => addToBucket inv r.app_name r) []

/-- The driver `run_inventory`: run every collector in order; the final inventory is
exactly the replay of all appended records. -/
def run_inventory (env : Env) : Inventory :=
  buildInventory (allRecords env)

/-- All records of an inventory, in bucket order. -/
def invFlatten (inv : Inventory) : List ResourceRecord :=
  (inv.map Prod.snd).flatten

/-- The entry point `main`: session construction failure is fatal (exit code 1, no
inventory); otherwise the run completes with exit code 0 and the final
inventory (collectors catch their own errors, so nothing later raises). -/
def mainRun (initResult : Except String Env) : Nat × Inventory :=
  match initResult with
  | .error _ => (1, [])
  | .ok env => (0, run_inventory env)

/-- Minimal JSON string escaping used by the serializer model (quote and
backslash; the script's values need nothing more). -/
def jsonEscape (s : String) : String :=
  String.mk (s.data.flatMap fun c =>
    if c = '\\' then ['\\', '\\']
    else if c = '"' then ['\\', '"']
    else [c])

/-- Python `json.dumps` on one scalar value (`default=str` never fires here). -/
def jsonDumpVal : JVal → String
  | .jstr s => "\"" ++ jsonEscape s ++ "\""
  | .jint n => toString n

/-- Python `json.dumps` on a string-keyed dict of scalars, with the default
separators. -/
def jsonDumps (kvs : List (String × JVal)) : String :=
  "\x7b" ++ String.intercalate ", "
      (kvs.map fun kv => "\"" ++ jsonEscape kv.1 ++ "\": " ++ jsonDumpVal kv.2)
    ++ "\x7d"

/-- The keys excluded from the `Additional Info` column. -/
def csvExcludedKeys : List String :=
  ["service", "resource_type", "name", "arn", "app_name", "tags"]

/-- The dict `additional_info`: the record's dict minus the fixed columns and the raw
tags — on this record shape, the `extra` fields that do not collide with an
excluded key. -/
def additional_info (r : ResourceRecord) : List (String × JVal) :=
  r.extra.filter fun kv => !(csvExcludedKeys.contains kv.1)

/-- The header cells the script writes to the CSV report. -/
def csvHeaderCells : List String :=
  ["App Name", "Service", "Resource Type", "Resource Name", "ARN", "Additional Info"]

/-- One CSV data row: the bucket's owner key, the record's fixed columns,
and the serialized `additional_info`. -/
def csvRow (owner : String) (r : ResourceRecord) : List String :=
  [owner, r.service, r.resource_type, r.name, r.arn, jsonDumps (additional_info r)]

/-- The nested `for app_name, resources in self.inventory.items()` loop of
the CSV part of `generate_reports`. -/
def csvRows : Inventory → List (List String)
  | [] => []
  | (owner, rs) :: rest => rs.map (csvRow owner) ++ csvRows rest

/-- The CSV report of `generate_reports`, as its list of rows (the writer
joins each row with plain commas). -/
def generate_reports_csv (inv : Inventory) : List (List String) :=
  csvHeaderCells :: csvRows inv

/-- The first line of the CSV report as the `csv` writer serializes it
(no cell needs quoting). -/
def csvHeaderLine : String :=
  String.intercalate "," csvHeaderCells

/-- A boto3 client handle; `uid` is a creation counter standing in for
object identity, so that re-creation is observable in the model. -/
structure ClientHandle where
  service : String
  region : String
  uid : Nat
deriving DecidableEq

/-- The provider state: the configured region, the `self.clients` cache (an
ordered dict), and the creation counter. -/
structure ClientState where
  region : String
  clients : List (String × ClientHandle)
  nextUid : Nat
deriving DecidableEq

/-- The method `get_client(self, service)`: return the cached handle, or create one for
the configured region, cache it, and return it. -/
def get_client (st : ClientState) (service : String) : ClientHandle × ClientState :=
  match st.clients.lookup service with
  | some c => (c, st)
  | none =>
      let c : ClientHandle := ⟨service, st.region, st.nextUid⟩
      (c, { st with clients := st.clients ++ [(service, c)], nextUid := st.nextUid + 1 })

theorem except_toOption_eq_some {ε α : Type} {x : Except ε α} {a : α} :
    x.toOption = some a ↔ x = .ok a := by
  cases x <;> simp [Except.toOption]

theorem mem_collectRecords {α : Type} {process : α → Except String ResourceRecord}
    {items : List α} {r : ResourceRecord} :
    r ∈ collectRecords process items ↔ ∃ a ∈ items, process a = .ok r := by
  simp [collectRecords, List.mem_filterMap, except_toOption_eq_some]

theorem mem_collectWarnings {α : Type} {process : α → Except String ResourceRecord}
    {items : List α} {w : String} :
    w ∈ collectWarnings process items ↔ ∃ a ∈ items, process a = .error w := by
  simp only [collectWarnings, List.mem_filterMap]
  constructor
  · rintro ⟨a, ha, hw⟩
    refine ⟨a, ha, ?_⟩
    cases h : process a with
    | ok v => rw [h] at hw; simp at hw
    | error e => rw [h] at hw; simp at hw; rw [hw]
  · rintro ⟨a, ha, hw⟩
    exact ⟨a, ha, by simp [hw]⟩

theorem mem_invFlatten_addToBucket {inv : Inventory} {key : String}
    {x r : ResourceRecord} :
    r ∈ invFlatten (addToBucket inv key x) ↔ r ∈ invFlatten inv ∨ r = x := by
  induction inv with
  | nil => simp [addToBucket, invFlatten]
  | cons p rest ih =>
      obtain ⟨k, rs⟩ := p
      by_cases hk : k = key
      · simp only [addToBucket, if_pos hk, invFlatten, List.map_cons, List.flatten_cons,
          List.mem_append, List.mem_singleton]
        tauto
      · simp only [addToBucket, if_neg hk]
        simp only [invFlatten, List.map_cons, List.flatten_cons, List.mem_append] at ih ⊢
        tauto

theorem mem_invFlatten_foldl {rs : List ResourceRecord} {inv : Inventory}
    {r : ResourceRecord} :
    r ∈ invFlatten (rs.foldl (fun acc x => addToBucket acc x.app_name x) inv) ↔
      r ∈ invFlatten inv ∨ r ∈ rs := by
  induction rs generalizing inv with
  | nil => simp
  | cons x xs ih =>
      simp only [List.foldl_cons, ih, mem_invFlatten_addToBucket, List.mem_cons]
      tauto

theorem mem_invFlatten_buildInventory {rs : List ResourceRecord} {r : ResourceRecord} :
    r ∈ invFlatten (buildInventory rs) ↔ r ∈ rs := by
  rw [buildInventory, mem_invFlatten_foldl]
  simp [invFlatten]

/-- Every record of a bucket carries the bucket's key as its `app_name` —
the well-formedness the aggregation step establishes. -/
abbrev WellKeyed (inv : Inventory) : Prop :=
  ∀ p ∈ inv, ∀ r ∈ p.2, r.app_name = p.1

theorem wellKeyed_addToBucket {inv : Inventory} {x : ResourceRecord}
    (h : WellKeyed inv) : WellKeyed (addToBucket inv x.app_name x) := by
  induction inv with
  | nil =>
      intro p hp r hr
      simp [addToBucket] at hp
      subst hp
      simp at hr
      simp [hr]
  | cons q rest ih =>
      obtain ⟨k, rs⟩ := q
      have hq : WellKeyed rest := fun p hp r hr => h p (by simp [hp]) r hr
      by_cases hk : k = x.app_name
      · intro p hp r hr
        simp only [addToBucket, if_pos hk] at hp
        rcases List.mem_cons.mp hp with hp1 | hp2
        · subst hp1
          simp only [List.mem_append, List.mem_singleton] at hr
          rcases hr with hr | hr
          · exact h (k, rs) (by simp) r hr
          · simp [hr, hk]
        · exact hq p hp2 r hr
      · intro p hp r hr
        simp only [addToBucket, if_neg hk] at hp
        rcases List.mem_cons.mp hp with hp1 | hp2
        · subst hp1
          exact h (k, rs) (by simp) r hr
        · exact ih hq p hp2 r hr

theorem wellKeyed_buildInventory (rs : List ResourceRecord) :
    WellKeyed (buildInventory rs) := by
  suffices h : ∀ inv : Inventory, WellKeyed inv →
      WellKeyed (rs.foldl (fun acc x => addToBucket acc x.app_name x) inv) by
    exact h [] (by intro p hp; simp at hp)
  induction rs with
  | nil => intro inv h; exact h
  | cons x xs ih =>
      intro inv h
      exact ih _ (wellKeyed_addToBucket h)

theorem csvRows_of_wellKeyed {inv : Inventory} (h : WellKeyed inv) :
    csvRows inv = (invFlatten inv).map fun r => csvRow r.app_name r := by
  induction inv with
  | nil => simp [csvRows, invFlatten]
  | cons p rest ih =>
      obtain ⟨k, rs⟩ := p
      have hrest : WellKeyed rest := fun q hq r hr => h q (by simp [hq]) r hr
      have hbucket : ∀ r ∈ rs, r.app_name = k := fun r hr => h (k, rs) (by simp) r hr
      have h1 : rs.map (csvRow k) = rs.map fun r => csvRow r.app_name r :=
        (List.map_congr_left fun r hr => by rw [hbucket r hr]).symm
      calc csvRows ((k, rs) :: rest)
          = rs.map (csvRow k) ++ csvRows rest := rfl
        _ = (rs.map fun r => csvRow r.app_name r)
              ++ (invFlatten rest).map (fun r => csvRow r.app_name r) := by
            rw [h1, ih hrest]
        _ = (invFlatten ((k, rs) :: rest)).map (fun r => csvRow r.app_name r) := by
            simp [invFlatten]

theorem string_data_append (s t : String) : (s ++ t).data = s.data ++ t.data := rfl

theorem string_eq_empty_of_data_nil {s : String} (h : s.data = []) : s = "" := by
  cases s with
  | mk cs =>
      simp only at h
      rw [h]

theorem string_append_ne_empty_of_left {s : String} (t : String)
    (h : s ≠ "") : s ++ t ≠ "" := by
  intro he
  have hd : s.data ++ t.data = ([] : List Char) := by
    rw [← string_data_append, he]
  rcases List.append_eq_nil.mp hd with ⟨h1, _⟩
  exact h (string_eq_empty_of_data_nil h1)

theorem processLambdaFunction_ok {f : LambdaFunction} {r : ResourceRecord}
    (h : processLambdaFunction f = .ok r) :
    r.service = "Lambda" ∧ r.name = f.FunctionName ∧ r.arn = f.FunctionArn := by
  cases hf : f.listTagsResult with
  | error e => simp [processLambdaFunction, hf] at h
  | ok tm =>
      simp only [processLambdaFunction, hf, Except.ok.injEq] at h
      subst h
      exact ⟨rfl, rfl, rfl⟩

theorem processDBInstance_ok {db : DBInstance} {r : ResourceRecord}
    (h : processDBInstance db = .ok r) :
    r.service = "RDS" ∧ r.name = db.DBInstanceIdentifier ∧ r.arn = db.DBInstanceArn := by
  cases hf : db.listTagsResult with
  | error e => simp [processDBInstance, hf] at h
  | ok tl =>
      simp only [processDBInstance, hf, Except.ok.injEq] at h
      subst h
      exact ⟨rfl, rfl, rfl⟩

theorem processDBCluster_ok {c : DBCluster} {r : ResourceRecord}
    (h : processDBCluster c = .ok r) :
    r.service = "RDS" ∧ r.name = c.DBClusterIdentifier ∧ r.arn = c.DBClusterArn := by
  cases hf : c.listTagsResult with
  | error e => simp [processDBCluster, hf] at h
  | ok tl =>
      simp only [processDBCluster, hf, Except.ok.injEq] at h
      subst h
      exact ⟨rfl, rfl, rfl⟩

theorem processDynamoTable_ok {t : DynamoTableEntry} {r : ResourceRecord}
    (h : processDynamoTable t = .ok r) :
    r.service = "DynamoDB" ∧ r.name = t.tableName ∧
      ∃ d, t.describeResult = .ok d ∧ r.arn = d.TableArn := by
  cases hd : t.describeResult with
  | error e => simp [processDynamoTable, hd] at h
  | ok d =>
      cases ht : t.listTagsResult with
      | error e => simp [processDynamoTable, hd, ht] at h
      | ok tags =>
          simp only [processDynamoTable, hd, ht, Except.ok.injEq] at h
          subst h
          exact ⟨rfl, rfl, d, rfl, rfl⟩

theorem processS3Bucket_ok {b : S3Bucket} {r : ResourceRecord}
    (h : processS3Bucket b = .ok r) :
    r.service = "S3" ∧ r.name = b.Name ∧ r.arn = "arn:aws:s3:::" ++ b.Name := by
  cases ht : s3TagsOutcome b.taggingResult with
  | error e => simp [processS3Bucket, ht] at h
  | ok tags =>
      simp only [processS3Bucket, ht, Except.ok.injEq] at h
      subst h
      exact ⟨rfl, rfl, rfl⟩

theorem processRestApi_ok {region : String} {api : RestApi} {r : ResourceRecord}
    (h : processRestApi region api = .ok r) :
    r.service = "API Gateway" ∧ r.name = api.name ∧
      r.arn = "arn:aws:apigateway:" ++ region ++ "::/restapis/" ++ api.id := by
  cases hf : api.getTagsResult with
  | error e => simp [processRestApi, hf] at h
  | ok tm =>
      simp only [processRestApi, hf, Except.ok.injEq] at h
      subst h
      exact ⟨rfl, rfl, rfl⟩

theorem service_of_lambda {pages : Except String (List (List LambdaFunction))}
    {r : ResourceRecord} (h : r ∈ (inventory_lambda_functions pages).records) :
    r.service = "Lambda" := by
  cases pages with
  | error e => simp [inventory_lambda_functions] at h
  | ok ps =>
      simp only [inventory_lambda_functions] at h
      obtain ⟨f, _, hok⟩ := mem_collectRecords.mp h
      exact (processLambdaFunction_ok hok).1

theorem service_of_rds {ip : Except String (List (List DBInstance))}
    {cp : Except String (List (List DBCluster))}
    {r : ResourceRecord} (h : r ∈ (inventory_rds_instances ip cp).records) :
    r.service = "RDS" := by
  cases ip with
  | error e => simp [inventory_rds_instances] at h
  | ok ips =>
      cases cp with
      | error e =>
          simp only [inventory_rds_instances] at h
          obtain ⟨db, _, hok⟩ := mem_collectRecords.mp h
          exact (processDBInstance_ok hok).1
      | ok cps =>
          simp only [inventory_rds_instances, List.mem_append] at h
          rcases h with h | h
          · obtain ⟨db, _, hok⟩ := mem_collectRecords.mp h
            exact (processDBInstance_ok hok).1
          · obtain ⟨c, _, hok⟩ := mem_collectRecords.mp h
            exact (processDBCluster_ok hok).1

theorem service_of_dynamo {pages : Except String (List (List DynamoTableEntry))}
    {r : ResourceRecord} (h : r ∈ (inventory_dynamodb_tables pages).records) :
    r.service = "DynamoDB" := by
  cases pages with
  | error e => simp [inventory_dynamodb_tables] at h
  | ok ps =>
      simp only [inventory_dynamodb_tables] at h
      obtain ⟨t, _, hok⟩ := mem_collectRecords.mp h
      exact (processDynamoTable_ok hok).1

theorem service_of_s3 {listing : Except String (List S3Bucket)}
    {r : ResourceRecord} (h : r ∈ (inventory_s3_buckets listing).records) :
    r.service = "S3" := by
  cases listing with
  | error e => simp [inventory_s3_buckets] at h
  | ok bs =>
      simp only [inventory_s3_buckets] at h
      obtain ⟨b, _, hok⟩ := mem_collectRecords.mp h
      exact (processS3Bucket_ok hok).1

theorem service_of_ec2 {region : String} {pages : Except String (List (List Reservation))}
    {r : ResourceRecord} (h : r ∈ (inventory_ec2_instances region pages).records) :
    r.service = "EC2" := by
  cases pages with
  | error e => simp [inventory_ec2_instances] at h
  | ok ps =>
      simp only [inventory_ec2_instances, List.mem_map] at h
      obtain ⟨i, _, hok⟩ := h
      rw [← hok]
      rfl

theorem service_of_apigw {region : String}
    {rp : Except String (List (List RestApi))}
    {hp : Except String (List (List HttpApi))}
    {r : ResourceRecord} (h : r ∈ (inventory_apigateway_apis region rp hp).records) :
    r.service = "API Gateway" ∨ r.service = "API Gateway v2" := by
  cases rp with
  | error e => simp [inventory_apigateway_apis] at h
  | ok rps =>
      cases hp with
      | error e =>
          simp only [inventory_apigateway_apis] at h
          obtain ⟨api, _, hok⟩ := mem_collectRecords.mp h
          exact Or.inl (processRestApi_ok hok).1
      | ok hps =>
          simp only [inventory_apigateway_apis, List.mem_append, List.mem_map] at h
          rcases h with h | ⟨api, _, hok⟩
          · obtain ⟨api, _, hok⟩ := mem_collectRecords.mp h
            exact Or.inl (processRestApi_ok hok).1
          · right
            rw [← hok]
            rfl

theorem extractFromEntries_first_match (pre post : List TagEntry)
    (fields : List (String × String))
    (hpre : ∀ e ∈ pre, matchesTag e = false)
    (hmatch : matchesTag (.mk fields) = true) :
    extractFromEntries (pre ++ .mk fields :: post)
      = normalizeValue (pyGet fields "Value" "") := by
  induction pre with
  | nil =>
      have hcond : (app_tag_keys.contains (pyGet fields "Key" "")
          && (pyGet fields "Value" "" != "")) = true := hmatch
      simp only [List.nil_append, extractFromEntries, hcond, if_true]
  | cons e pre ih =>
      have he : matchesTag e = false := hpre e (by simp)
      have hrest : ∀ x ∈ pre, matchesTag x = false := fun x hx => hpre x (by simp [hx])
      cases e with
      | other s =>
          simpa only [List.cons_append, extractFromEntries] using ih hrest
      | mk f =>
          have hcond : (app_tag_keys.contains (pyGet f "Key" "")
              && (pyGet f "Value" "" != "")) = false := he
          simp only [List.cons_append, extractFromEntries, hcond, Bool.false_eq_true,
            if_false]
          exact ih hrest

theorem extractFromEntries_of_no_match (es : List TagEntry)
    (h : ∀ e ∈ es, matchesTag e = false) : extractFromEntries es = "untagged" := by
  induction es with
  | nil => rfl
  | cons e rest ih =>
      have he : matchesTag e = false := h e (by simp)
      have hrest : ∀ x ∈ rest, matchesTag x = false := fun x hx => h x (by simp [hx])
      cases e with
      | other s => simpa only [extractFromEntries] using ih hrest
      | mk f =>
          have hcond : (app_tag_keys.contains (pyGet f "Key" "")
              && (pyGet f "Value" "" != "")) = false := he
          simp only [extractFromEntries, hcond, Bool.false_eq_true, if_false]
          exact ih hrest

/-- C2: for every tag sequence (a list of `{Key, Value}` dicts) whose first
entry with a recognized owner-tag key and non-empty value is the given one,
`extract_app_name` returns that entry's value, lower-cased and with each
space replaced by a hyphen, regardless of the other non-matching entries
around it; in particular `project=Order Service` resolves to
`order-service` (see the witness). -/
theorem extract_app_name_first_match (pre post : List TagEntry)
    (fields : List (String × String))
    (hpre : ∀ e ∈ pre, matchesTag e = false)
    (hmatch : matchesTag (.mk fields) = true) :
    extract_app_name (.list (pre ++ .mk fields :: post))
      = normalizeValue (pyGet fields "Value" "") := by
  have hne : pyFalsy (.list (pre ++ .mk fields :: post)) = false := by
    cases pre <;> rfl
  rw [extract_app_name, hne]
  simp only [Bool.false_eq_true, if_false, entriesOf]
  exact extractFromEntries_first_match pre post fields hpre hmatch

theorem extract_app_name_first_match_witness :
    extract_app_name (.list
      [.mk [("Key", "env"), ("Value", "prod")],
       .mk [("Key", "project"), ("Value", "Order Service")],
       .mk [("Key", "App"), ("Value", "Other")]]) = "order-service" := by
  have h := extract_app_name_first_match
    [.mk [("Key", "env"), ("Value", "prod")]]
    [.mk [("Key", "App"), ("Value", "Other")]]
    [("Key", "project"), ("Value", "Order Service")]
    (by decide) (by decide)
  exact h.trans (by decide)

/-- C3: the recognized owner-tag keys are exactly the fixed case-sensitive
list `['Application', 'App', 'application', 'app', 'Project', 'project']`,
and `extract_app_name` returns the sentinel `untagged` on an absent
(`None`) input, an empty list, and any list without an entry whose key is
in that list with a non-empty value (so unlisted case variants such as
`PROJECT` fall through — see the witness). -/
theorem extract_app_name_untagged_cases :
    app_tag_keys = ["Application", "App", "application", "app", "Project", "project"] ∧
    extract_app_name .noneInput = "untagged" ∧
    extract_app_name (.list []) = "untagged" ∧
    ∀ tags : List TagEntry, (∀ e ∈ tags, matchesTag e = false) →
      extract_app_name (.list tags) = "untagged" := by
  refine ⟨rfl, rfl, rfl, ?_⟩
  intro tags htags
  cases tags with
  | nil => rfl
  | cons e rest =>
      rw [extract_app_name]
      simp only [pyFalsy, List.isEmpty_cons, Bool.false_eq_true, if_false, entriesOf]
      exact extractFromEntries_of_no_match (e :: rest) htags

theorem extract_app_name_untagged_cases_witness :
    extract_app_name (.list
      [.mk [("Key", "PROJECT"), ("Value", "Checkout")],
       .mk [("Key", "Application"), ("Value", "")],
       .mk [("Key", "team"), ("Value", "core")]]) = "untagged" :=
  extract_app_name_untagged_cases.2.2.2 _ (by decide)

/-- C10: `extract_app_name` is total over arbitrarily shaped inputs — a
non-dict entry in the sequence is silently skipped as non-matching, so
passing a flat key-to-value map directly (whose iteration yields its plain
string keys) always resolves to `untagged`, whatever tags it contains. -/
theorem extract_app_name_nondict_entries :
    (∀ m : List (String × String), extract_app_name (.flatMap m) = "untagged") ∧
    ∀ (s : String) (rest : List TagEntry),
      extract_app_name (.list (.other s :: rest)) = extract_app_name (.list rest) := by
  constructor
  · intro m
    cases m with
    | nil => rfl
    | cons kv tl =>
        rw [extract_app_name]
        simp only [pyFalsy, List.isEmpty_cons, Bool.false_eq_true, if_false, entriesOf]
        apply extractFromEntries_of_no_match
        intro e he
        simp only [List.mem_map] at he
        obtain ⟨kv', _, hkv⟩ := he
        rw [← hkv]
        rfl
  · intro s rest
    cases rest <;> rfl

/-- C1 (code bug): for an HTTP-style (v2) API whose flat tag map holds a
recognized owner-tag key with a non-empty value, the collector does NOT
normalize the map before resolving the owner — it passes the flat map
straight to `extract_app_name`, so the emitted record's owner key is
`untagged`, even though the list-of-pairs shape of the very same tags (the
one stored in the record's `tags` field) resolves to the normalized value. -/
theorem apigwV2_flat_tags_owner_is_untagged :
    (processHttpApi "us-east-1"
      { ApiId := "api1", Name := "checkout-api", ProtocolType := some "HTTP",
        CreatedDate := none, Tags := some [("Application", "Checkout")] }).app_name
      = "untagged" ∧
    extract_app_name (.list (tagPairsToDicts [("Application", "Checkout")]))
      = "checkout" ∧
    (processHttpApi "us-east-1"
      { ApiId := "api1", Name := "checkout-api", ProtocolType := some "HTTP",
        CreatedDate := none, Tags := some [("Application", "Checkout")] }).tags
      = tagPairsToDicts [("Application", "Checkout")] := by
  refine ⟨?_, ?_, ?_⟩ <;> decide

/-- C4: if the top-level listing call of the relational-database collector
fails, the final inventory holds no record with service `RDS`, the run's
outcome is exactly what it would be with an empty successful RDS listing
(every other collector runs and its records are unaffected), and the run
still completes with exit status 0. -/
theorem rds_listing_failure_isolated (env : Env) (e : String)
    (h : env.rdsInstancePages = .error e) :
    (∀ r ∈ invFlatten (run_inventory env), r.service ≠ "RDS") ∧
    run_inventory env
      = run_inventory
          { env with rdsInstancePages := .ok [], rdsClusterPages := .ok [] } ∧
    (mainRun (.ok env)).1 = 0 := by
  have hrds :
      (inventory_rds_instances env.rdsInstancePages env.rdsClusterPages).records
        = [] := by
    rw [h]
    rfl
  refine ⟨?_, ?_, rfl⟩
  · intro r hr
    rw [run_inventory, mem_invFlatten_buildInventory] at hr
    simp only [allRecords, collectAll, List.map_cons, List.map_nil, List.flatten_cons,
      List.flatten_nil, List.append_nil, List.mem_append] at hr
    rcases hr with h1 | h2 | h3 | h4 | h5 | h6
    · rw [service_of_lambda h1]; decide
    · rw [hrds] at h2; simp at h2
    · rw [service_of_dynamo h3]; decide
    · rw [service_of_s3 h4]; decide
    · rw [service_of_ec2 h5]; decide
    · rcases service_of_apigw h6 with h6 | h6 <;> rw [h6] <;> decide
  · rw [run_inventory, run_inventory]
    have harec : allRecords env
        = allRecords { env with rdsInstancePages := .ok [], rdsClusterPages := .ok [] } := by
      simp only [allRecords, collectAll, List.map_cons, List.map_nil, hrds]
      rfl
    rw [harec]

/-- A tagged Lambda function used by concrete run environments. -/
def c4Fn : LambdaFunction :=
  ⟨"fn1", "arn:aws:lambda:us-east-1:123:function:fn1", some "python3.9",
   some 128, some 30, some "2024-01-01", .ok [("Application", "Checkout")]⟩

/-- A tagged DynamoDB table used by concrete run environments. -/
def c4Tbl : DynamoTableEntry :=
  ⟨"tbl1",
   .ok ⟨"arn:aws:dynamodb:us-east-1:123:table/tbl1", some "ACTIVE", some 10, some 1000⟩,
   .ok [.mk [("Key", "Application"), ("Value", "Checkout")]]⟩

/-- An untagged S3 bucket used by concrete run environments. -/
def c4Bkt : S3Bucket :=
  ⟨"bkt1", "2024-01-01T00:00:00", .clientError "NoSuchTagSet", .ok (some "us-east-1")⟩

/-- A tagged EC2 instance used by concrete run environments. -/
def c4Inst : EC2Instance :=
  ⟨"i-1", some "123", some "t3.micro", some "running", some "2024-01-01T00:00:00",
   some [.mk [("Key", "project"), ("Value", "Order Service")]]⟩

/-- A tagged REST API used by concrete run environments. -/
def c4Rest : RestApi :=
  ⟨"r1", "rest-api", some "2024-01-01", .ok [("Project", "Billing")]⟩

/-- A tagged HTTP (v2) API used by concrete run environments. -/
def c4Http : HttpApi :=
  ⟨"h1", "http-api", some "HTTP", some "2024-01-01", some [("app", "web")]⟩

/-- A concrete run environment in which the RDS listing call fails with a
permission error while every other service lists at least one resource. -/
def c4Env : Env :=
  ⟨"us-east-1", .ok [[c4Fn]], .error "AccessDenied", .ok [], .ok [[c4Tbl]],
   .ok [c4Bkt], .ok [[⟨[c4Inst]⟩]], .ok [[c4Rest]], .ok [[c4Http]]⟩

theorem rds_listing_failure_isolated_witness :
    (∀ r ∈ invFlatten (run_inventory c4Env), r.service ≠ "RDS") ∧
    run_inventory c4Env
      = run_inventory
          { c4Env with rdsInstancePages := .ok [], rdsClusterPages := .ok [] } ∧
    (mainRun (.ok c4Env)).1 = 0 :=
  rds_listing_failure_isolated c4Env "AccessDenied" (by rfl)

/-- C5: inside the compute-function collector, a failed secondary tag fetch
for a single listed function R omits R from the output with a warning and
never yields a record for it, while every function whose tag fetch succeeds
(listed before or after R) still yields a record; the failure never aborts
the collector (no collector-level error is logged and the whole listing is
still processed). -/
theorem lambda_tag_fetch_failure_skips_one (pages : List (List LambdaFunction))
    (R : LambdaFunction) (msg : String)
    (hR : R ∈ pages.flatten)
    (hfail : R.listTagsResult = .error msg)
    (huniq : ∀ g ∈ pages.flatten, g.FunctionName = R.FunctionName → g = R) :
    (∀ rec ∈ (inventory_lambda_functions (.ok pages)).records,
       rec.name ≠ R.FunctionName) ∧
    (∀ g ∈ pages.flatten, ∀ tm, g.listTagsResult = .ok tm →
       ∃ rec ∈ (inventory_lambda_functions (.ok pages)).records,
         rec.name = g.FunctionName) ∧
    ("Error processing Lambda function " ++ R.FunctionName ++ ": " ++ msg)
        ∈ (inventory_lambda_functions (.ok pages)).warnings ∧
    (inventory_lambda_functions (.ok pages)).errors = [] := by
  have hRerr : processLambdaFunction R
      = .error ("Error processing Lambda function " ++ R.FunctionName ++ ": " ++ msg) := by
    simp [processLambdaFunction, hfail]
  refine ⟨?_, ?_, ?_, rfl⟩
  · intro rec hrec hname
    obtain ⟨g, hg, hok⟩ :=
      mem_collectRecords.mp (hrec : rec ∈ collectRecords processLambdaFunction pages.flatten)
    have hgn : g.FunctionName = R.FunctionName := by
      rw [← (processLambdaFunction_ok hok).2.1]
      exact hname
    rw [huniq g hg hgn, hRerr] at hok
    cases hok
  · intro g hg tm htm
    have hok : processLambdaFunction g = .ok
        ⟨"Lambda", "Function", g.FunctionName, g.FunctionArn,
         extract_app_name (.list (tagPairsToDicts tm)),
         [("runtime", .jstr (g.Runtime.getD "Unknown")),
          ("memory", .jint (g.MemorySize.getD 0)),
          ("timeout", .jint (g.Timeout.getD 0)),
          ("last_modified", .jstr (g.LastModified.getD ""))],
         tagPairsToDicts tm⟩ := by
      simp [processLambdaFunction, htm]
    exact ⟨_, mem_collectRecords.mpr ⟨g, hg, hok⟩, rfl⟩
  · exact mem_collectWarnings.mpr ⟨R, hR, hRerr⟩

/-- A function whose tag fetch fails, listed between two functions whose
fetches succeed. -/
def c5Bad : LambdaFunction :=
  ⟨"fn-bad", "arn:aws:lambda:us-east-1:123:function:fn-bad", some "python3.9",
   some 128, some 30, some "2024-01-01", .error "ThrottlingException"⟩

/-- The page list around `c5Bad`: one healthy function before it and one
after it, on separate pages. -/
def c5Pages : List (List LambdaFunction) :=
  [[⟨"fn-a", "arn:aws:lambda:us-east-1:123:function:fn-a", some "python3.9",
     some 128, some 30, some "2024-01-01", .ok [("Application", "Checkout")]⟩,
    c5Bad],
   [⟨"fn-b", "arn:aws:lambda:us-east-1:123:function:fn-b", some "nodejs18.x",
     some 256, some 60, some "2024-02-01", .ok []⟩]]

theorem lambda_tag_fetch_failure_skips_one_witness :
    (∀ rec ∈ (inventory_lambda_functions (.ok c5Pages)).records,
       rec.name ≠ c5Bad.FunctionName) ∧
    (∀ g ∈ c5Pages.flatten, ∀ tm, g.listTagsResult = .ok tm →
       ∃ rec ∈ (inventory_lambda_functions (.ok c5Pages)).records,
         rec.name = g.FunctionName) ∧
    ("Error processing Lambda function " ++ c5Bad.FunctionName ++ ": "
        ++ "ThrottlingException")
      ∈ (inventory_lambda_functions (.ok c5Pages)).warnings ∧
    (inventory_lambda_functions (.ok c5Pages)).errors = [] :=
  lambda_tag_fetch_failure_skips_one c5Pages c5Bad "ThrottlingException"
    (by decide) (by rfl) (by decide)

/-- C6: for object-storage buckets, a tag fetch answered by a `ClientError`
with code `NoSuchTagSet` means "no tags configured" and is not a failure —
the bucket is still emitted (with owner key `untagged`, there being no
tags), while a tag fetch answered by any other client-error code skips the
bucket with a warning. -/
theorem s3_nosuchtagset_not_a_failure (buckets : List S3Bucket) (B : S3Bucket)
    (hB : B ∈ buckets)
    (huniq : ∀ b ∈ buckets, b.Name = B.Name → b = B) :
    (B.taggingResult = .clientError "NoSuchTagSet" →
       ∃ rec ∈ (inventory_s3_buckets (.ok buckets)).records,
         rec.name = B.Name ∧ rec.app_name = "untagged" ∧ rec.tags = []) ∧
    (∀ code, code ≠ "NoSuchTagSet" → B.taggingResult = .clientError code →
       (∀ rec ∈ (inventory_s3_buckets (.ok buckets)).records, rec.name ≠ B.Name) ∧
       ("Error processing S3 bucket " ++ B.Name ++ ": " ++ code)
          ∈ (inventory_s3_buckets (.ok buckets)).warnings) := by
  constructor
  · intro h
    have hout : s3TagsOutcome B.taggingResult = .ok [] := by
      rw [h]
      simp [s3TagsOutcome]
    have hok : processS3Bucket B = .ok
        ⟨"S3", "Bucket", B.Name, "arn:aws:s3:::" ++ B.Name, "untagged",
         [("creation_date", .jstr B.CreationDate), ("region", .jstr (s3Location B))],
         []⟩ := by
      simp only [processS3Bucket, hout]
      rfl
    exact ⟨_, mem_collectRecords.mpr ⟨B, hB, hok⟩, rfl, rfl, rfl⟩
  · intro code hcode htag
    have herr : processS3Bucket B
        = .error ("Error processing S3 bucket " ++ B.Name ++ ": " ++ code) := by
      have hout : s3TagsOutcome B.taggingResult = .error code := by
        rw [htag]
        simp [s3TagsOutcome, hcode]
      simp [processS3Bucket, hout]
    constructor
    · intro rec hrec hname
      obtain ⟨b, hb, hok⟩ :=
        mem_collectRecords.mp (hrec : rec ∈ collectRecords processS3Bucket buckets)
      have hbn : b.Name = B.Name := by
        rw [← (processS3Bucket_ok hok).2.1]
        exact hname
      rw [huniq b hb hbn, herr] at hok
      cases hok
    · exact mem_collectWarnings.mpr ⟨B, hB, herr⟩

/-- A bucket whose tag fetch reports "no tags configured". -/
def c6Good : S3Bucket :=
  ⟨"bkt-good", "2024-01-01T00:00:00", .clientError "NoSuchTagSet", .ok none⟩

/-- A bucket whose tag fetch fails with a genuine client error. -/
def c6Bad : S3Bucket :=
  ⟨"bkt-bad", "2024-01-01T00:00:00", .clientError "AccessDenied", .ok none⟩

/-- The bucket listing holding both concrete buckets. -/
def c6Buckets : List S3Bucket := [c6Good, c6Bad]

theorem s3_nosuchtagset_not_a_failure_witness :
    (∃ rec ∈ (inventory_s3_buckets (.ok c6Buckets)).records,
       rec.name = c6Good.Name ∧ rec.app_name = "untagged" ∧ rec.tags = []) ∧
    (∀ rec ∈ (inventory_s3_buckets (.ok c6Buckets)).records,
       rec.name ≠ c6Bad.Name) ∧
    ("Error processing S3 bucket " ++ c6Bad.Name ++ ": " ++ "AccessDenied")
        ∈ (inventory_s3_buckets (.ok c6Buckets)).warnings := by
  have h1 :=
    (s3_nosuchtagset_not_a_failure c6Buckets c6Good (by decide) (by decide)).1 (by rfl)
  have h2 :=
    (s3_nosuchtagset_not_a_failure c6Buckets c6Bad (by decide) (by decide)).2
      "AccessDenied" (by decide) (by rfl)
  exact ⟨h1, h2.1, h2.2⟩

/-- Whether every Lambda ARN the environment supplies is non-empty. -/
def lambdaArnsOk : Except String (List (List LambdaFunction)) → Bool
  | .error _ => true
  | .ok ps => ps.flatten.all fun f => f.FunctionArn != ""

/-- Whether every DB-instance ARN the environment supplies is non-empty. -/
def dbInstanceArnsOk : Except String (List (List DBInstance)) → Bool
  | .error _ => true
  | .ok ps => ps.flatten.all fun d => d.DBInstanceArn != ""

/-- Whether every DB-cluster ARN the environment supplies is non-empty. -/
def dbClusterArnsOk : Except String (List (List DBCluster)) → Bool
  | .error _ => true
  | .ok ps => ps.flatten.all fun c => c.DBClusterArn != ""

/-- Whether one table entry's described ARN (if the describe succeeds) is
non-empty. -/
def dynamoEntryArnOk (t : DynamoTableEntry) : Bool :=
  match t.describeResult with
  | .ok d => d.TableArn != ""
  | .error _ => true

/-- Whether every table ARN the environment supplies is non-empty. -/
def dynamoArnsOk : Except String (List (List DynamoTableEntry)) → Bool
  | .error _ => true
  | .ok ps => ps.flatten.all dynamoEntryArnOk

/-- Whether every ARN taken verbatim from a provider API response in the
environment is non-empty (the services whose records copy an API-supplied
ARN: Lambda, RDS, DynamoDB). -/
def arnFieldsNonEmpty (env : Env) : Bool :=
  lambdaArnsOk env.lambdaPages && dbInstanceArnsOk env.rdsInstancePages
    && dbClusterArnsOk env.rdsClusterPages && dynamoArnsOk env.dynamoPages

/-- C7: every record emitted by any collector has a non-empty `arn` — taken
from the provider response for Lambda, RDS and DynamoDB (assuming the
provider supplies non-empty ARNs), and deterministically constructed with a
non-empty literal prefix from region, owner id and resource id for S3, EC2
and both API Gateway generations. -/
theorem emitted_arn_nonempty (env : Env) (h : arnFieldsNonEmpty env = true) :
    ∀ r ∈ allRecords env, r.arn ≠ "" := by
  rw [arnFieldsNonEmpty, Bool.and_eq_true, Bool.and_eq_true, Bool.and_eq_true] at h
  obtain ⟨⟨⟨hlam, hinst⟩, hclus⟩, hdyn⟩ := h
  intro r hr
  simp only [allRecords, collectAll, List.map_cons, List.map_nil, List.flatten_cons,
    List.flatten_nil, List.append_nil, List.mem_append] at hr
  rcases hr with h1 | h2 | h3 | h4 | h5 | h6
  · cases hp : env.lambdaPages with
    | error e =>
        rw [hp] at h1
        simp [inventory_lambda_functions] at h1
    | ok ps =>
        rw [hp] at h1 hlam
        simp only [lambdaArnsOk] at hlam
        obtain ⟨f, hf, hok⟩ :=
          mem_collectRecords.mp (h1 : r ∈ collectRecords processLambdaFunction ps.flatten)
        rw [(processLambdaFunction_ok hok).2.2]
        simpa using List.all_eq_true.mp hlam f hf
  · cases hp : env.rdsInstancePages with
    | error e =>
        rw [hp] at h2
        simp [inventory_rds_instances] at h2
    | ok ips =>
        rw [hp] at h2 hinst
        simp only [dbInstanceArnsOk] at hinst
        have hinstArn : ∀ s ∈ collectRecords processDBInstance ips.flatten, s.arn ≠ "" := by
          intro s hs
          obtain ⟨db, hdb, hok⟩ := mem_collectRecords.mp hs
          rw [(processDBInstance_ok hok).2.2]
          simpa using List.all_eq_true.mp hinst db hdb
        cases hc : env.rdsClusterPages with
        | error e =>
            rw [hc] at h2
            exact hinstArn r (h2 : r ∈ (inventory_rds_instances (.ok ips) (.error e)).records)
        | ok cps =>
            rw [hc] at h2 hclus
            simp only [dbClusterArnsOk] at hclus
            rcases List.mem_append.mp
                (h2 : r ∈ collectRecords processDBInstance ips.flatten
                        ++ collectRecords processDBCluster cps.flatten) with hh | hh
            · exact hinstArn r hh
            · obtain ⟨c, hcm, hok⟩ := mem_collectRecords.mp hh
              rw [(processDBCluster_ok hok).2.2]
              simpa using List.all_eq_true.mp hclus c hcm
  · cases hp : env.dynamoPages with
    | error e =>
        rw [hp] at h3
        simp [inventory_dynamodb_tables] at h3
    | ok ps =>
        rw [hp] at h3 hdyn
        simp only [dynamoArnsOk] at hdyn
        obtain ⟨t, ht, hok⟩ :=
          mem_collectRecords.mp (h3 : r ∈ collectRecords processDynamoTable ps.flatten)
        obtain ⟨d, hd, harn⟩ := (processDynamoTable_ok hok).2.2
        rw [harn]
        have := List.all_eq_true.mp hdyn t ht
        rw [dynamoEntryArnOk, hd] at this
        simpa using this
  · cases hp : env.s3Listing with
    | error e =>
        rw [hp] at h4
        simp [inventory_s3_buckets] at h4
    | ok bs =>
        rw [hp] at h4
        obtain ⟨b, hb, hok⟩ :=
          mem_collectRecords.mp (h4 : r ∈ collectRecords processS3Bucket bs)
        rw [(processS3Bucket_ok hok).2.2]
        exact string_append_ne_empty_of_left b.Name (by decide)
  · cases hp : env.ec2Pages with
    | error e =>
        rw [hp] at h5
        simp [inventory_ec2_instances] at h5
    | ok ps =>
        rw [hp] at h5
        obtain ⟨i, _, hok⟩ := List.mem_map.mp
          (h5 : r ∈ ((ps.flatten.map Reservation.Instances).flatten).map
                  (processEC2Instance env.region))
        rw [← hok]
        exact string_append_ne_empty_of_left _
          (string_append_ne_empty_of_left _
            (string_append_ne_empty_of_left _
              (string_append_ne_empty_of_left _
                (string_append_ne_empty_of_left _ (by decide)))))
  · cases hp : env.restApiPages with
    | error e =>
        rw [hp] at h6
        simp [inventory_apigateway_apis] at h6
    | ok rps =>
        rw [hp] at h6
        have hrestArn : ∀ s ∈ collectRecords (processRestApi env.region) rps.flatten,
            s.arn ≠ "" := by
          intro s hs
          obtain ⟨api, _, hok⟩ := mem_collectRecords.mp hs
          rw [(processRestApi_ok hok).2.2]
          exact string_append_ne_empty_of_left _
            (string_append_ne_empty_of_left _
              (string_append_ne_empty_of_left _ (by decide)))
        cases hq : env.httpApiPages with
        | error e =>
            rw [hq] at h6
            exact hrestArn r
              (h6 : r ∈ (inventory_apigateway_apis env.region (.ok rps) (.error e)).records)
        | ok hps =>
            rw [hq] at h6
            rcases List.mem_append.mp
                (h6 : r ∈ collectRecords (processRestApi env.region) rps.flatten
                        ++ hps.flatten.map (processHttpApi env.region)) with hh | hh
            · exact hrestArn r hh
            · obtain ⟨api, _, hok⟩ := List.mem_map.mp hh
              rw [← hok]
              exact string_append_ne_empty_of_left _
                (string_append_ne_empty_of_left _
                  (string_append_ne_empty_of_left _ (by decide)))

/-- A concrete environment where every service lists one resource and every
API-supplied ARN is non-empty. -/
def c7Env : Env :=
  ⟨"us-east-1",
   .ok [[⟨"fn7", "arn:aws:lambda:us-east-1:123:function:fn7", none, none, none, none,
          .ok []⟩]],
   .ok [[⟨"db7", "arn:aws:rds:us-east-1:123:db:db7", some "postgres",
          some "db.t3.micro", some "available", some 20, .ok []⟩]],
   .ok [[⟨"cl7", "arn:aws:rds:us-east-1:123:cluster:cl7", some "aurora",
          some "available", .ok []⟩]],
   .ok [[⟨"tbl7",
          .ok ⟨"arn:aws:dynamodb:us-east-1:123:table/tbl7", some "ACTIVE", some 0, some 0⟩,
          .ok []⟩]],
   .ok [⟨"bkt7", "2024-01-01T00:00:00", .ok [.mk [("Key", "App"), ("Value", "Web")]],
         .ok none⟩],
   .ok [[⟨[⟨"i-7", none, none, none, none, none⟩]⟩]],
   .ok [[⟨"r7", "rest7", none, .ok []⟩]],
   .ok [[⟨"h7", "http7", none, none, none⟩]]⟩

theorem emitted_arn_nonempty_witness :
    arnFieldsNonEmpty c7Env = true ∧ ∀ r ∈ allRecords c7Env, r.arn ≠ "" :=
  ⟨by decide, emitted_arn_nonempty c7Env (by decide)⟩

/-- C8 (counterexample): the header row the script writes is
`App Name, Service, Resource Type, Resource Name, ARN, Additional Info`,
not the claimed `Owner Key, Service, Resource Type, Name, ARN, Additional
Info` — neither as cells nor as the serialized first line. -/
theorem csv_header_counterexample :
    csvHeaderCells
      ≠ ["Owner Key", "Service", "Resource Type", "Name", "ARN", "Additional Info"] ∧
    csvHeaderLine ≠ "Owner Key, Service, Resource Type, Name, ARN, Additional Info" := by
  decide

/-- C8 (amended): the tabular report is comma-delimited with exactly the
header cells `App Name, Service, Resource Type, Resource Name, ARN,
Additional Info`, followed by one row per `ResourceRecord` of the final
inventory whose columns are the record's owner key (`app_name`), service,
resource type, name, ARN, and the JSON string serializing its remaining
attributes excluding the fixed columns and the raw tags. -/
theorem csv_report_structure (env : Env) :
    generate_reports_csv (run_inventory env)
      = csvHeaderCells :: (invFlatten (run_inventory env)).map
          (fun r => [r.app_name, r.service, r.resource_type, r.name, r.arn,
                     jsonDumps (additional_info r)]) := by
  rw [generate_reports_csv, run_inventory,
    csvRows_of_wellKeyed (wellKeyed_buildInventory (allRecords env))]
  rfl

theorem lookup_append_singleton {l : List (String × ClientHandle)} {k : String}
    {v : ClientHandle} (h : l.lookup k = none) :
    (l ++ [(k, v)]).lookup k = some v := by
  induction l with
  | nil => simp [List.lookup]
  | cons p rest ih =>
      obtain ⟨k', v'⟩ := p
      cases hk : k == k' with
      | true => simp [List.lookup, hk] at h
      | false =>
          rw [List.cons_append]
          simp only [List.lookup, hk] at h ⊢
          exact ih h

/-- C9: `get_client` is an idempotent memoization — a first call for a
service name creates one handle for the configured region, caches it under
that name and bumps the creation counter; every call on the resulting state
returns that identical handle with the state unchanged (no re-creation),
and a call on a state that already caches the name returns the cached
handle unchanged. -/
theorem get_client_memoization (st : ClientState) (service : String) :
    get_client (get_client st service).2 service = get_client st service ∧
    ((get_client st service).2).clients.lookup service
      = some (get_client st service).1 ∧
    (st.clients.lookup service = none →
       (get_client st service).1.service = service ∧
       (get_client st service).1.region = st.region ∧
       (get_client st service).2.nextUid = st.nextUid + 1 ∧
       (get_client st service).2.clients
         = st.clients ++ [(service, (get_client st service).1)]) ∧
    ∀ c₀, st.clients.lookup service = some c₀ → get_client st service = (c₀, st) := by
  cases h : st.clients.lookup service with
  | some c =>
      have hg : get_client st service = (c, st) := by
        simp [get_client, h]
      rw [hg]
      refine ⟨hg, by simpa using h, ?_, ?_⟩
      · intro hn
        cases hn
      · intro c₀ h₀
        injection h₀ with h₀
        rw [h₀]
  | none =>
      have hg : get_client st service
          = (⟨service, st.region, st.nextUid⟩,
             ⟨st.region,
              st.clients ++ [(service, ⟨service, st.region, st.nextUid⟩)],
              st.nextUid + 1⟩) := by
        simp [get_client, h]
      have hlook :
          (st.clients ++ [(service, (⟨service, st.region, st.nextUid⟩ : ClientHandle))]).lookup
              service
            = some ⟨service, st.region, st.nextUid⟩ :=
        lookup_append_singleton h
      rw [hg]
      refine ⟨?_, by simpa using hlook, ?_, ?_⟩
      · simp [get_client, hlook]
      · intro _
        exact ⟨rfl, rfl, rfl, rfl⟩
      · intro c₀ h₀
        cases h₀

/-- The provider state right after construction: configured region, empty
client cache. -/
def c9State : ClientState := ⟨"us-east-1", [], 0⟩

theorem get_client_memoization_witness :
    get_client (get_client c9State "s3").2 "s3" = get_client c9State "s3" ∧
    (get_client c9State "s3").1.service = "s3" ∧
    (get_client c9State "s3").1.region = "us-east-1" ∧
    (get_client c9State "s3").2.nextUid = 1 := by
  have h := get_client_memoization c9State "s3"
  have h3 := h.2.2.1 (by rfl)
  exact ⟨h.1, h3.1, h3.2.1, h3.2.2.1⟩

end AwsInventory
